import Mathlib

/-
Verification of the Timeshift overtime-callout engine
(`backend/src/api/callout.rs`) against its specification.

The embedding models the database tables touched by the callout engine as
lists of rows inside a `DB` record, and each HTTP handler's success path as
a pure function `DB → Except AppError (DB × result)`.  A handler's early
`return Err(..)` inside the SQL transaction corresponds to `Except.error`,
which carries no state: the transaction rolls back, so an error leaves the
database exactly as it was.

Modelling conventions:
  - uuids are modelled as `Nat`;
  - SQL `NUMERIC` / `FLOAT8` hour quantities are modelled as `Rat`
    (the exact value `duration_minutes / 60`);
  - `time::Date` is modelled as a year plus a day-of-year ordinal with the
    lexicographic order;
  - display-only pass-through columns (names, employee ids, timestamps,
    classification abbreviations) are omitted: no specified property
    mentions them;
  - SQL `SELECT / UPDATE / INSERT` against a table becomes
    `List.find?` / `List.map` / append on the corresponding row list, and
    the `ORDER BY` of the ranking query becomes a sortedness predicate on
    the result (SQL fixes the relative order only of rows whose sort keys
    differ, so the query result is modelled relationally: any permutation
    of the candidate rows that is sorted w.r.t. the ORDER BY key).
-/

namespace Timeshift

/-- Calendar date: a year and a day-of-year ordinal, ordered lexicographically. -/
structure Date where
  year : Int
  day : Nat
deriving DecidableEq

/-- Date comparison (lexicographic on year, then day). -/
def dateLe (d e : Date) : Bool :=
  decide (d.year < e.year) || (d.year == e.year && decide (d.day ≤ e.day))

/-- `callout_status` enum from `models/callout.rs`. -/
inductive CalloutStatus where
  | Open
  | Filled
  | Cancelled
deriving DecidableEq

/-- `leave_status` enum from `models/leave.rs` (only `approved` matters here). -/
inductive LeaveStatus where
  | Pending
  | Approved
  | Denied
deriving DecidableEq

/-- `AppError` from `error.rs`, restricted to the variants the callout engine
produces. -/
inductive AppError where
  | Unauthorized
  | Forbidden
  | NotFound (msg : String)
  | BadRequest (msg : String)
  | Conflict (msg : String)
deriving DecidableEq

/-- Row of `shift_templates` (only the column the callout engine reads). -/
structure ShiftTemplateRow where
  id : Nat
  org_id : Nat
  duration_minutes : Int
deriving DecidableEq

/-- Row of `scheduled_shifts`. -/
structure ScheduledShiftRow where
  id : Nat
  org_id : Nat
  shift_template_id : Nat
  date : Date
deriving DecidableEq

/-- Row of `users` (columns the callout engine reads). -/
structure UserRow where
  id : Nat
  org_id : Nat
  is_active : Bool
  seniority_date : Option Date
  classification_id : Option Nat
deriving DecidableEq

/-- Row of `callout_events`. -/
structure CalloutEventRow where
  id : Nat
  scheduled_shift_id : Nat
  initiated_by : Nat
  ot_reason_id : Option Nat
  reason_text : Option String
  classification_id : Option Nat
  status : CalloutStatus
deriving DecidableEq

/-- Row of `callout_attempts`. -/
structure CalloutAttemptRow where
  id : Nat
  event_id : Nat
  user_id : Nat
  list_position : Int
  response : String
  ot_hours_at_contact : Rat
  notes : Option String
deriving DecidableEq

/-- Row of `assignments`. -/
structure AssignmentRow where
  scheduled_shift_id : Nat
  user_id : Nat
  is_overtime : Bool
  created_by : Nat
deriving DecidableEq

/-- Row of `ot_hours`: the OT ledger keyed by
(user, fiscal year, classification-or-null). -/
structure OtHoursRow where
  user_id : Nat
  fiscal_year : Int
  classification_id : Option Nat
  hours_worked : Rat
  hours_declined : Rat
deriving DecidableEq

/-- Row of `leave_requests` (columns the ranking query reads). -/
structure LeaveRequestRow where
  user_id : Nat
  status : LeaveStatus
  start_date : Date
  end_date : Date
deriving DecidableEq

/-- Row of `ot_reasons` (existence/org only, for FK verification). -/
structure OtReasonRow where
  id : Nat
  org_id : Nat
deriving DecidableEq

/-- Row of `classifications` (existence/org only, for FK verification). -/
structure ClassificationRow where
  id : Nat
  org_id : Nat
deriving DecidableEq

/-- The database state touched by the callout engine. -/
structure DB where
  shift_templates : List ShiftTemplateRow
  scheduled_shifts : List ScheduledShiftRow
  users : List UserRow
  callout_events : List CalloutEventRow
  callout_attempts : List CalloutAttemptRow
  assignments : List AssignmentRow
  ot_hours : List OtHoursRow
  leave_requests : List LeaveRequestRow
  ot_reasons : List OtReasonRow
  classifications : List ClassificationRow
deriving DecidableEq

/-- `AuthUser` extractor: caller identity, org, and the
`role.can_manage_schedule()` capability bit. -/
structure AuthUser where
  id : Nat
  org_id : Nat
  canManageSchedule : Bool
deriving DecidableEq

/-- `RecordAttemptRequest` body as consumed by `record_attempt`. -/
structure RecordAttemptRequest where
  user_id : Nat
  response : String
  notes : Option String
deriving DecidableEq

/-- `CreateCalloutEventRequest` body. -/
structure CreateCalloutEventRequest where
  scheduled_shift_id : Nat
  ot_reason_id : Option Nat
  reason_text : Option String
  classification_id : Option Nat
deriving DecidableEq

/-- `SELECT EXISTS(... FROM scheduled_shifts WHERE id = $1 AND org_id = $2)`. -/
def shiftInOrg (db : DB) (sid org : Nat) : Bool :=
  db.scheduled_shifts.any (fun s => s.id == sid && s.org_id == org)

/-- `SELECT EXISTS(... FROM users WHERE id = $1 AND org_id = $2 AND is_active = true)`. -/
def userOk (db : DB) (uid org : Nat) : Bool :=
  db.users.any (fun u => u.id == uid && u.org_id == org && u.is_active)

/-- The joined event context loaded (and row-locked) at the top of
`record_attempt`: event status, its shift, the shift's org, date and the
template's duration. -/
structure EventCtx where
  status : CalloutStatus
  scheduled_shift_id : Nat
  org_id : Nat
  shift_date : Date
  duration_minutes : Int
deriving DecidableEq

/-- The `SELECT ... FROM callout_events JOIN scheduled_shifts JOIN
shift_templates WHERE ce.id = $1` at the top of `record_attempt`.  A missing
event, shift or template yields no row. -/
def findEventCtx (db : DB) (eventId : Nat) : Option EventCtx :=
  match db.callout_events.find? (fun e => e.id == eventId) with
  | none => none
  | some ev =>
    match db.scheduled_shifts.find? (fun s => s.id == ev.scheduled_shift_id) with
    | none => none
    | some ss =>
      match db.shift_templates.find? (fun t => t.id == ss.shift_template_id) with
      | none => none
      | some st =>
        some { status := ev.status, scheduled_shift_id := ev.scheduled_shift_id,
               org_id := ss.org_id, shift_date := ss.date,
               duration_minutes := st.duration_minutes }

/-- The `ON CONFLICT (user_id, fiscal_year, COALESCE(classification_id,
zero-uuid))` key: SQL NULL is coalesced to the all-zero uuid sentinel. -/
def coalesceKey : Option Nat → Nat
  | none => 0
  | some c => c

/-- Whether a ledger row matches the upsert conflict key for
(user, fiscal year, NULL classification). -/
def otKeyMatch (r : OtHoursRow) (uid : Nat) (fy : Int) : Bool :=
  r.user_id == uid && r.fiscal_year == fy && coalesceKey r.classification_id == 0

/-- `SELECT hours_worked FROM ot_hours WHERE user_id = $1 AND fiscal_year = $2
AND classification_id IS NULL`, with 0 when no row exists. -/
def otWorkedList (ot : List OtHoursRow) (uid : Nat) (fy : Int) : Rat :=
  match ot.find? (fun r => r.user_id == uid && r.fiscal_year == fy && r.classification_id == none) with
  | some r => r.hours_worked
  | none => 0

/-- Same lookup for the `hours_declined` column. -/
def otDeclinedList (ot : List OtHoursRow) (uid : Nat) (fy : Int) : Rat :=
  match ot.find? (fun r => r.user_id == uid && r.fiscal_year == fy && r.classification_id == none) with
  | some r => r.hours_declined
  | none => 0

/-- `otWorkedList` over a whole database state. -/
def otWorked (db : DB) (uid : Nat) (fy : Int) : Rat :=
  otWorkedList db.ot_hours uid fy

/-- `otDeclinedList` over a whole database state. -/
def otDeclined (db : DB) (uid : Nat) (fy : Int) : Rat :=
  otDeclinedList db.ot_hours uid fy

/-- `INSERT INTO ot_hours ... VALUES (..., $3, 0) ON CONFLICT ... DO UPDATE SET
hours_worked = ot_hours.hours_worked + $3`: insert-or-accumulate on the
worked column. -/
def upsertWorked (ot : List OtHoursRow) (uid : Nat) (fy : Int) (h : Rat) : List OtHoursRow :=
  if ot.any (fun r => otKeyMatch r uid fy) then
    ot.map (fun r => if otKeyMatch r uid fy then { r with hours_worked := r.hours_worked + h } else r)
  else
    ot ++ [{ user_id := uid, fiscal_year := fy, classification_id := none,
             hours_worked := h, hours_declined := 0 }]

/-- `INSERT INTO ot_hours ... VALUES (..., 0, $3) ON CONFLICT ... DO UPDATE SET
hours_declined = ot_hours.hours_declined + $3`: insert-or-accumulate on the
declined column. -/
def upsertDeclined (ot : List OtHoursRow) (uid : Nat) (fy : Int) (h : Rat) : List OtHoursRow :=
  if ot.any (fun r => otKeyMatch r uid fy) then
    ot.map (fun r => if otKeyMatch r uid fy then { r with hours_declined := r.hours_declined + h } else r)
  else
    ot ++ [{ user_id := uid, fiscal_year := fy, classification_id := none,
             hours_worked := 0, hours_declined := h }]

/-- `UPDATE callout_events SET status = 'filled' WHERE id = $1`. -/
def fillEvent (events : List CalloutEventRow) (eventId : Nat) : List CalloutEventRow :=
  events.map (fun e => if e.id == eventId then { e with status := CalloutStatus.Filled } else e)

/-- `INSERT INTO assignments ... ON CONFLICT (scheduled_shift_id, user_id)
DO NOTHING`: create the overtime assignment unless one already exists for the
(shift, user) pair. -/
def insertAssignment (asgs : List AssignmentRow) (sid uid creator : Nat) : List AssignmentRow :=
  if asgs.any (fun a => a.scheduled_shift_id == sid && a.user_id == uid) then asgs
  else asgs ++ [{ scheduled_shift_id := sid, user_id := uid, is_overtime := true, created_by := creator }]

/-- `SELECT EXISTS` for an assignment of user `uid` on shift `sid`. -/
def assignmentExists (db : DB) (sid uid : Nat) : Bool :=
  db.assignments.any (fun a => a.scheduled_shift_id == sid && a.user_id == uid)

/-- The three writes of the `"accepted"` branch of `record_attempt`:
mark the event filled, insert the overtime assignment idempotently,
and accumulate `hours_worked`. -/
def acceptedEffects (db : DB) (eventId sid uid creator : Nat) (fy : Int) (h : Rat) : DB :=
  { db with
    callout_events := fillEvent db.callout_events eventId,
    assignments := insertAssignment db.assignments sid uid creator,
    ot_hours := upsertWorked db.ot_hours uid fy h }

/-- `record_attempt` (`api/callout.rs` lines 261-455).  The returned `DB` is
the committed transaction; `Except.error` is a rollback, leaving the database
unchanged. -/
def recordAttempt (db : DB) (auth : AuthUser) (eventId : Nat)
    (req : RecordAttemptRequest) (attemptId : Nat) :
    Except AppError (DB × CalloutAttemptRow) :=
  if auth.canManageSchedule = true then
    if req.response = "accepted" ∨ req.response = "declined" ∨ req.response = "no_answer" then
      match findEventCtx db eventId with
      | none => .error (.NotFound ("Callout event not found"))
      | some ctx =>
        if ctx.org_id = auth.org_id then
          if ctx.status = CalloutStatus.Open then
            if userOk db req.user_id auth.org_id = true then
              let fiscalYear : Int := ctx.shift_date.year
              let snapshot : Rat := otWorkedList db.ot_hours req.user_id fiscalYear
              let count : Nat := (db.callout_attempts.filter (fun a => a.event_id == eventId)).length
              let position : Int := (count : Int) + 1
              let attempt : CalloutAttemptRow :=
                { id := attemptId, event_id := eventId, user_id := req.user_id,
                  list_position := position, response := req.response,
                  ot_hours_at_contact := snapshot, notes := req.notes }
              let db1 : DB := { db with callout_attempts := db.callout_attempts ++ [attempt] }
              let shiftHours : Rat := (ctx.duration_minutes : Rat) / 60
              if req.response = "accepted" then
                .ok (acceptedEffects db1 eventId ctx.scheduled_shift_id req.user_id auth.id fiscalYear shiftHours, attempt)
              else if req.response = "declined" then
                .ok ({ db1 with ot_hours := upsertDeclined db1.ot_hours req.user_id fiscalYear shiftHours }, attempt)
              else
                .ok (db1, attempt)
            else .error (.NotFound ("User not found"))
          else .error (.Conflict ("Callout event is no longer open"))
        else .error (.NotFound ("Callout event not found"))
    else .error (.BadRequest ("response must be accepted, declined, or no_answer"))
  else .error .Forbidden

/-- The `WHERE` clause of the cancel UPDATE: matching id, still open, and the
event's shift belongs to the caller's org. -/
def cancelCond (db : DB) (auth : AuthUser) (eventId : Nat) (e : CalloutEventRow) : Bool :=
  e.id == eventId && e.status == CalloutStatus.Open
    && shiftInOrg db e.scheduled_shift_id auth.org_id

/-- Effect of the cancel UPDATE on the events table. -/
def cancelMap (db : DB) (auth : AuthUser) (eventId : Nat) : List CalloutEventRow :=
  db.callout_events.map (fun e =>
    if cancelCond db auth eventId e then { e with status := CalloutStatus.Cancelled } else e)

/-- `cancel_event` (`api/callout.rs` lines 457-491): one `UPDATE ... WHERE
id = $1 AND status = 'open' AND EXISTS(shift in caller org)`; zero affected
rows — whatever the cause — reports NotFound. -/
def cancelEvent (db : DB) (auth : AuthUser) (eventId : Nat) : Except AppError DB :=
  if auth.canManageSchedule = true then
    if db.callout_events.any (cancelCond db auth eventId) then
      .ok { db with callout_events := cancelMap db auth eventId }
    else
      .error (.NotFound ("Event not found, already cancelled, or already filled"))
  else .error .Forbidden

/-- `create_event` (`api/callout.rs` lines 95-152): verify the FK references
belong to the caller's org, then insert a fresh event with status `open`.
The primary-key uniqueness constraint on `callout_events.id` is modelled as a
Conflict on a duplicate id (per the 23505 mapping in `error.rs`). -/
def createEvent (db : DB) (auth : AuthUser) (req : CreateCalloutEventRequest)
    (newId : Nat) : Except AppError DB :=
  if auth.canManageSchedule = true then
    if shiftInOrg db req.scheduled_shift_id auth.org_id = true then
      if (match req.ot_reason_id with
          | none => true
          | some rid => db.ot_reasons.any (fun r => r.id == rid && r.org_id == auth.org_id)) = true then
        if (match req.classification_id with
            | none => true
            | some cid => db.classifications.any (fun c => c.id == cid && c.org_id == auth.org_id)) = true then
          if db.callout_events.any (fun e => e.id == newId) then
            .error (.Conflict ("A record with that value already exists"))
          else
            .ok { db with callout_events := db.callout_events ++
              [{ id := newId, scheduled_shift_id := req.scheduled_shift_id,
                 initiated_by := auth.id, ot_reason_id := req.ot_reason_id,
                 reason_text := req.reason_text,
                 classification_id := req.classification_id,
                 status := CalloutStatus.Open }] }
        else .error (.NotFound ("Classification not found"))
      else .error (.NotFound ("OT reason not found"))
    else .error (.NotFound ("Scheduled shift not found"))
  else .error .Forbidden

/-- `EXISTS(SELECT 1 FROM assignments a WHERE a.user_id = u.id AND
a.scheduled_shift_id = $1)` — the user is already on the shift. -/
def alreadyAssigned (db : DB) (sid uid : Nat) : Bool :=
  db.assignments.any (fun a => a.user_id == uid && a.scheduled_shift_id == sid)

/-- `EXISTS(SELECT 1 FROM leave_requests lr ... WHERE lr.user_id = u.id AND
lr.status = 'approved' AND lr.start_date <= ss.date AND lr.end_date >= ss.date)`
— an approved leave request covers the shift date. -/
def onApprovedLeave (db : DB) (uid : Nat) (shiftDate : Date) : Bool :=
  db.leave_requests.any (fun lr =>
    lr.user_id == uid && lr.status == LeaveStatus.Approved
      && dateLe lr.start_date shiftDate && dateLe shiftDate lr.end_date)

/-- One row of the ranking query of `callout_list` before positions are
assigned (display-only columns omitted). -/
structure CandidateRow where
  user_id : Nat
  seniority_date : Option Date
  ot_hours : Rat
  is_available : Bool
  unavailable_reason : Option String
deriving DecidableEq

/-- The derived columns the ranking query computes for one user: availability,
its reason (assignment takes precedence over leave), and the current-year
null-classification OT hours (`ot.fiscal_year = EXTRACT(YEAR FROM
CURRENT_DATE)` — note: the year of `today`, not of the shift date). -/
def rosterRow (db : DB) (sid : Nat) (shiftDate today : Date) (u : UserRow) : CandidateRow :=
  { user_id := u.id,
    seniority_date := u.seniority_date,
    ot_hours := otWorkedList db.ot_hours u.id today.year,
    is_available := !alreadyAssigned db sid u.id && !onApprovedLeave db u.id shiftDate,
    unavailable_reason :=
      if alreadyAssigned db sid u.id then some ("Already scheduled")
      else if onApprovedLeave db u.id shiftDate then some ("On approved leave")
      else none }

/-- `FROM users u ... WHERE u.is_active = true AND u.org_id = $2`, with the
derived ranking columns. -/
def calloutRows (db : DB) (org sid : Nat) (shiftDate today : Date) : List CandidateRow :=
  (db.users.filter (fun u => u.is_active && u.org_id == org)).map
    (rosterRow db sid shiftDate today)

/-- `ORDER BY (available) DESC` encoded as a rank: available first. -/
def availRank (b : Bool) : Nat :=
  if b then 0 else 1

/-- `u.seniority_date ASC NULLS LAST` as a boolean comparison on the optional
seniority date. -/
def senLe : Option Date → Option Date → Bool
  | none, none => true
  | none, some _ => false
  | some _, none => true
  | some d, some e => dateLe d e

/-- The full `ORDER BY` key of the ranking query: availability descending,
then current-year OT hours ascending, then seniority date ascending with
nulls last. -/
def entryLe (a b : CandidateRow) : Bool :=
  decide (availRank a.is_available < availRank b.is_available) ||
    (availRank a.is_available == availRank b.is_available &&
      (decide (a.ot_hours < b.ot_hours) ||
        (a.ot_hours == b.ot_hours && senLe a.seniority_date b.seniority_date)))

/-- A list sorted according to the ranking query's `ORDER BY`. -/
def rankingSorted (l : List CandidateRow) : Prop :=
  l.Pairwise (fun a b => entryLe a b = true)

instance (l : List CandidateRow) : Decidable (rankingSorted l) :=
  inferInstanceAs (Decidable (l.Pairwise (fun a b => entryLe a b = true)))

/-- A possible result of the ranking query: some permutation of the candidate
rows that respects the `ORDER BY` (SQL leaves the relative order of rows with
equal sort keys unspecified). -/
def validRankingOutput (db : DB) (org sid : Nat) (shiftDate today : Date)
    (out : List CandidateRow) : Prop :=
  List.Perm out (calloutRows db org sid shiftDate today) ∧ rankingSorted out

/-- `CalloutListEntry` as serialized by `callout_list` (display-only columns
omitted). -/
structure CalloutListEntry where
  position : Int
  user_id : Nat
  seniority_date : Option Date
  ot_hours : Rat
  is_available : Bool
  unavailable_reason : Option String
deriving DecidableEq

/-- Attach the 1-based position to the row at 0-based index `i`. -/
def toEntry (i : Nat) (r : CandidateRow) : CalloutListEntry :=
  { position := (i : Int) + 1, user_id := r.user_id,
    seniority_date := r.seniority_date, ot_hours := r.ot_hours,
    is_available := r.is_available, unavailable_reason := r.unavailable_reason }

/-- The `.enumerate().map(|(i, r)| ... position: i + 1 ...)` step of
`callout_list`, starting at index `k`. -/
def withPositionsFrom (k : Nat) : List CandidateRow → List CalloutListEntry
  | [] => []
  | r :: rs => toEntry k r :: withPositionsFrom (k + 1) rs

/-- The final entry list of `callout_list`: query rows with 1-based positions. -/
def withPositions (out : List CandidateRow) : List CalloutListEntry :=
  withPositionsFrom 0 out

/-- Equality of the three ranking sort keys (availability, OT hours,
seniority date): entries the `ORDER BY` cannot tell apart. -/
def sameKey (a b : CandidateRow) : Prop :=
  a.is_available = b.is_available ∧ a.ot_hours = b.ot_hours
    ∧ a.seniority_date = b.seniority_date

instance (a b : CandidateRow) : Decidable (sameKey a b) :=
  inferInstanceAs (Decidable (a.is_available = b.is_available ∧ a.ot_hours = b.ot_hours
    ∧ a.seniority_date = b.seniority_date))

/-- Status of the event with a given id, `none` when absent. -/
def statusOf (db : DB) (eventId : Nat) : Option CalloutStatus :=
  (db.callout_events.find? (fun e => e.id == eventId)).map (fun e => e.status)

/-- Number of recorded attempts for an event. -/
def countAttempts (db : DB) (eventId : Nat) : Nat :=
  (db.callout_attempts.filter (fun a => a.event_id == eventId)).length

/-- The `list_position` values of an event's attempts, in insertion order. -/
def positionsOf (db : DB) (eventId : Nat) : List Int :=
  (db.callout_attempts.filter (fun a => a.event_id == eventId)).map (fun a => a.list_position)

/-- One invocation of a state-changing callout operation. -/
inductive Op where
  | create (auth : AuthUser) (req : CreateCalloutEventRequest) (newId : Nat)
  | attempt (auth : AuthUser) (eventId : Nat) (req : RecordAttemptRequest) (attemptId : Nat)
  | cancel (auth : AuthUser) (eventId : Nat)

/-- Apply one operation; a failed operation (rolled-back transaction) leaves
the database unchanged. -/
def applyOp (op : Op) (db : DB) : DB :=
  match op with
  | .create auth req newId =>
    match createEvent db auth req newId with
    | .ok db' => db'
    | .error _ => db
  | .attempt auth eventId req attemptId =>
    match recordAttempt db auth eventId req attemptId with
    | .ok (db', _) => db'
    | .error _ => db
  | .cancel auth eventId =>
    match cancelEvent db auth eventId with
    | .ok db' => db'
    | .error _ => db

/-- Apply a sequence of operations in order. -/
def runOps (ops : List Op) (db : DB) : DB :=
  match ops with
  | [] => db
  | op :: rest => runOps rest (applyOp op db)

/-! ### Generic list lemmas -/

theorem find?_append_some {α} {p : α → Bool} {l₁ l₂ : List α} {a : α}
    (h : l₁.find? p = some a) : (l₁ ++ l₂).find? p = some a := by
  rw [List.find?_append, h]
  rfl

theorem find?_append_none {α} {p : α → Bool} {l₁ l₂ : List α}
    (h : l₁.find? p = none) : (l₁ ++ l₂).find? p = l₂.find? p := by
  rw [List.find?_append, h]
  rfl

theorem find?_map_congr {α} {p : α → Bool} {f : α → α}
    (hf : ∀ x, p (f x) = p x) (l : List α) :
    (l.map f).find? p = (l.find? p).map f := by
  have hpf : p ∘ f = p := funext hf
  rw [List.find?_map, hpf]

/-! ### Ledger lemmas

The upsert's `ON CONFLICT` key coalesces a NULL classification to the all-zero
uuid, while the lookups test `classification_id IS NULL` directly.  The two
agree on every ledger whose rows never use the all-zero uuid as a genuine
classification id (uuids are randomly generated), which `cleanLedger`
captures. -/

/-- No ledger row uses the all-zero uuid as a (non-NULL) classification id. -/
def cleanLedger (ot : List OtHoursRow) : Prop :=
  ∀ r ∈ ot, r.classification_id ≠ some 0

/-- The NULL-classification lookup predicate used by `otWorkedList` and
`otDeclinedList`. -/
def otNullPred (uid : Nat) (fy : Int) (r : OtHoursRow) : Bool :=
  r.user_id == uid && r.fiscal_year == fy && r.classification_id == none

theorem otKeyMatch_eq_nullPred {ot : List OtHoursRow} (hclean : cleanLedger ot)
    {r : OtHoursRow} (hr : r ∈ ot) (uid : Nat) (fy : Int) :
    otKeyMatch r uid fy = otNullPred uid fy r := by
  unfold otKeyMatch otNullPred
  cases hc : r.classification_id with
  | none => rfl
  | some c =>
    have hcne : c ≠ 0 := by
      intro h0
      exact hclean r hr (by rw [hc, h0])
    simp [coalesceKey, hcne]

theorem otWorkedList_eq_find (ot : List OtHoursRow) (uid : Nat) (fy : Int) :
    otWorkedList ot uid fy =
      match ot.find? (otNullPred uid fy) with
      | some r => r.hours_worked
      | none => 0 := rfl

theorem otDeclinedList_eq_find (ot : List OtHoursRow) (uid : Nat) (fy : Int) :
    otDeclinedList ot uid fy =
      match ot.find? (otNullPred uid fy) with
      | some r => r.hours_declined
      | none => 0 := rfl

/-- Accumulation: the worked-hours upsert adds exactly `h` to the
NULL-classification entry for (uid, fy), whether or not the row existed. -/
theorem otWorkedList_upsertWorked {ot : List OtHoursRow} (hclean : cleanLedger ot)
    (uid : Nat) (fy : Int) (h : Rat) :
    otWorkedList (upsertWorked ot uid fy h) uid fy = otWorkedList ot uid fy + h := by
  unfold upsertWorked
  by_cases hany : ot.any (fun r => otKeyMatch r uid fy) = true
  · rw [if_pos hany]
    obtain ⟨r₀, hmem, hmatch⟩ := List.any_eq_true.mp hany
    have hfind_isSome : (ot.find? (otNullPred uid fy)).isSome := by
      rw [List.find?_isSome]
      exact ⟨r₀, hmem, by rw [← otKeyMatch_eq_nullPred hclean hmem]; exact hmatch⟩
    obtain ⟨r₁, hfind⟩ := Option.isSome_iff_exists.mp hfind_isSome
    have hr₁mem : r₁ ∈ ot := List.mem_of_find?_eq_some hfind
    have hr₁p : otNullPred uid fy r₁ = true := List.find?_some hfind
    have hr₁match : otKeyMatch r₁ uid fy = true := by
      rw [otKeyMatch_eq_nullPred hclean hr₁mem]; exact hr₁p
    have hpres : ∀ x : OtHoursRow,
        otNullPred uid fy (if otKeyMatch x uid fy then { x with hours_worked := x.hours_worked + h } else x)
          = otNullPred uid fy x := by
      intro x
      by_cases hx : otKeyMatch x uid fy = true
      · rw [if_pos hx]; rfl
      · rw [if_neg hx]
    rw [otWorkedList_eq_find, otWorkedList_eq_find, find?_map_congr hpres, hfind]
    simp [hr₁match]
  · rw [if_neg hany]
    have hnone : ot.find? (otNullPred uid fy) = none := by
      rw [List.find?_eq_none]
      intro r hr hp
      exact hany (List.any_eq_true.mpr
        ⟨r, hr, by rw [otKeyMatch_eq_nullPred hclean hr]; exact hp⟩)
    rw [otWorkedList_eq_find, otWorkedList_eq_find, find?_append_none hnone, hnone]
    simp [otNullPred, List.find?]

/-- Accumulation for the declined-hours upsert. -/
theorem otDeclinedList_upsertDeclined {ot : List OtHoursRow} (hclean : cleanLedger ot)
    (uid : Nat) (fy : Int) (h : Rat) :
    otDeclinedList (upsertDeclined ot uid fy h) uid fy = otDeclinedList ot uid fy + h := by
  unfold upsertDeclined
  by_cases hany : ot.any (fun r => otKeyMatch r uid fy) = true
  · rw [if_pos hany]
    obtain ⟨r₀, hmem, hmatch⟩ := List.any_eq_true.mp hany
    have hfind_isSome : (ot.find? (otNullPred uid fy)).isSome := by
      rw [List.find?_isSome]
      exact ⟨r₀, hmem, by rw [← otKeyMatch_eq_nullPred hclean hmem]; exact hmatch⟩
    obtain ⟨r₁, hfind⟩ := Option.isSome_iff_exists.mp hfind_isSome
    have hr₁mem : r₁ ∈ ot := List.mem_of_find?_eq_some hfind
    have hr₁p : otNullPred uid fy r₁ = true := List.find?_some hfind
    have hr₁match : otKeyMatch r₁ uid fy = true := by
      rw [otKeyMatch_eq_nullPred hclean hr₁mem]; exact hr₁p
    have hpres : ∀ x : OtHoursRow,
        otNullPred uid fy (if otKeyMatch x uid fy then { x with hours_declined := x.hours_declined + h } else x)
          = otNullPred uid fy x := by
      intro x
      by_cases hx : otKeyMatch x uid fy = true
      · rw [if_pos hx]; rfl
      · rw [if_neg hx]
    rw [otDeclinedList_eq_find, otDeclinedList_eq_find, find?_map_congr hpres, hfind]
    simp [hr₁match]
  · rw [if_neg hany]
    have hnone : ot.find? (otNullPred uid fy) = none := by
      rw [List.find?_eq_none]
      intro r hr hp
      exact hany (List.any_eq_true.mpr
        ⟨r, hr, by rw [otKeyMatch_eq_nullPred hclean hr]; exact hp⟩)
    rw [otDeclinedList_eq_find, otDeclinedList_eq_find, find?_append_none hnone, hnone]
    simp [otNullPred, List.find?]

/-- Frame: the declined-hours upsert never changes any worked-hours figure. -/
theorem otWorkedList_upsertDeclined (ot : List OtHoursRow)
    (uid : Nat) (fy : Int) (h : Rat) (uid' : Nat) (fy' : Int) :
    otWorkedList (upsertDeclined ot uid fy h) uid' fy' = otWorkedList ot uid' fy' := by
  unfold upsertDeclined
  by_cases hany : ot.any (fun r => otKeyMatch r uid fy) = true
  · rw [if_pos hany]
    have hpres : ∀ x : OtHoursRow,
        otNullPred uid' fy' (if otKeyMatch x uid fy then { x with hours_declined := x.hours_declined + h } else x)
          = otNullPred uid' fy' x := by
      intro x
      by_cases hx : otKeyMatch x uid fy = true
      · rw [if_pos hx]; rfl
      · rw [if_neg hx]
    rw [otWorkedList_eq_find, otWorkedList_eq_find, find?_map_congr hpres]
    cases hfind : ot.find? (otNullPred uid' fy') with
    | none => rfl
    | some r =>
      by_cases hx : otKeyMatch r uid fy = true
      · simp [hx]
      · simp [hx]
  · rw [if_neg hany]
    rw [otWorkedList_eq_find, otWorkedList_eq_find]
    cases hfind : ot.find? (otNullPred uid' fy') with
    | none =>
      rw [find?_append_none hfind]
      by_cases hp : otNullPred uid' fy'
          { user_id := uid, fiscal_year := fy, classification_id := none,
            hours_worked := 0, hours_declined := h } = true
      · rw [List.find?_cons_of_pos _ hp]
      · rw [List.find?_cons_of_neg _ hp]
        rfl
    | some r => rw [find?_append_some hfind]

/-! ### Event-status lemmas -/

/-- Status lookup over a bare events table. -/
def statusOfList (events : List CalloutEventRow) (eventId : Nat) : Option CalloutStatus :=
  (events.find? (fun e => e.id == eventId)).map (fun e => e.status)

theorem statusOf_eq_list (db : DB) (eventId : Nat) :
    statusOf db eventId = statusOfList db.callout_events eventId := rfl

theorem findEventCtx_status {db : DB} {eventId : Nat} {ctx : EventCtx}
    (h : findEventCtx db eventId = some ctx) :
    statusOf db eventId = some ctx.status := by
  unfold findEventCtx at h
  cases hev : db.callout_events.find? (fun e => e.id == eventId) with
  | none => rw [hev] at h; exact absurd h (by simp)
  | some ev =>
    rw [hev] at h
    simp only at h
    cases hss : db.scheduled_shifts.find? (fun s => s.id == ev.scheduled_shift_id) with
    | none => rw [hss] at h; exact absurd h (by simp)
    | some ss =>
      rw [hss] at h
      simp only at h
      cases hst : db.shift_templates.find? (fun t => t.id == ss.shift_template_id) with
      | none => rw [hst] at h; exact absurd h (by simp)
      | some st =>
        rw [hst] at h
        simp only [Option.some.injEq] at h
        rw [statusOf_eq_list, statusOfList, hev, ← h]
        rfl

/-- `fillEvent` preserves row ids, so status lookups commute with it. -/
theorem statusOfList_fillEvent (events : List CalloutEventRow) (eventId e' : Nat) :
    statusOfList (fillEvent events eventId) e' =
      (events.find? (fun e => e.id == e')).map (fun e =>
        if e.id == eventId then CalloutStatus.Filled else e.status) := by
  unfold statusOfList fillEvent
  rw [find?_map_congr (fun x => by
    by_cases hx : (x.id == eventId) = true
    · rw [if_pos hx]
    · rw [if_neg hx])]
  cases events.find? (fun e => e.id == e') with
  | none => rfl
  | some r =>
    by_cases hr : r.id = eventId
    · simp [hr]
    · simp [hr]

/-- `cancelMap` preserves row ids, so status lookups commute with it. -/
theorem statusOfList_cancelMap (db : DB) (auth : AuthUser) (eventId e' : Nat) :
    statusOfList (cancelMap db auth eventId) e' =
      (db.callout_events.find? (fun e => e.id == e')).map (fun e =>
        if cancelCond db auth eventId e then CalloutStatus.Cancelled else e.status) := by
  unfold statusOfList cancelMap
  rw [find?_map_congr (fun x => by
    by_cases hx : cancelCond db auth eventId x = true
    · rw [if_pos hx]
    · rw [if_neg hx])]
  cases db.callout_events.find? (fun e => e.id == e') with
  | none => rfl
  | some r =>
    by_cases hr : cancelCond db auth eventId r = true
    · simp [hr]
    · simp [hr]

/-! ### Inversion lemmas for the three operations -/

theorem recordAttempt_ok_inv {db : DB} {auth : AuthUser} {eventId : Nat}
    {req : RecordAttemptRequest} {attemptId : Nat} {db' : DB} {att : CalloutAttemptRow}
    (h : recordAttempt db auth eventId req attemptId = Except.ok (db', att)) :
    statusOf db eventId = some CalloutStatus.Open ∧
    att.event_id = eventId ∧
    att.list_position = (countAttempts db eventId : Int) + 1 ∧
    db'.callout_attempts = db.callout_attempts ++ [att] ∧
    (db'.callout_events = fillEvent db.callout_events eventId ∨
      db'.callout_events = db.callout_events) := by
  by_cases hrole : auth.canManageSchedule = true
  case neg => simp [recordAttempt, hrole] at h
  by_cases hval : req.response = "accepted" ∨ req.response = "declined" ∨ req.response = "no_answer"
  case neg => simp [recordAttempt, hrole, hval] at h
  cases hctx : findEventCtx db eventId with
  | none => simp [recordAttempt, hrole, hval, hctx] at h
  | some ctx =>
    by_cases horg : ctx.org_id = auth.org_id
    case neg => simp [recordAttempt, hrole, hval, hctx, horg] at h
    by_cases hopen : ctx.status = CalloutStatus.Open
    case neg => simp [recordAttempt, hrole, hval, hctx, horg, hopen] at h
    by_cases huser : userOk db req.user_id auth.org_id = true
    case neg => simp [recordAttempt, hrole, hval, hctx, horg, hopen, huser] at h
    have hstat : statusOf db eventId = some CalloutStatus.Open := by
      rw [← hopen]; exact findEventCtx_status hctx
    by_cases hacc : req.response = "accepted"
    · simp [recordAttempt, hrole, hval, hctx, horg, hopen, huser, hacc] at h
      obtain ⟨hdb, hatt⟩ := h
      subst hdb; subst hatt
      exact ⟨hstat, rfl, rfl, rfl, Or.inl rfl⟩
    by_cases hdec : req.response = "declined"
    · simp [recordAttempt, hrole, hval, hctx, horg, hopen, huser, hacc, hdec] at h
      obtain ⟨hdb, hatt⟩ := h
      subst hdb; subst hatt
      exact ⟨hstat, rfl, rfl, rfl, Or.inr rfl⟩
    · have hno : req.response = "no_answer" := (hval.resolve_left hacc).resolve_left hdec
      simp [recordAttempt, hrole, hval, hctx, horg, hopen, huser, hacc, hdec, hno] at h
      obtain ⟨hdb, hatt⟩ := h
      subst hdb; subst hatt
      exact ⟨hstat, rfl, rfl, rfl, Or.inr rfl⟩

theorem createEvent_ok_inv {db : DB} {auth : AuthUser} {req : CreateCalloutEventRequest}
    {newId : Nat} {db' : DB}
    (h : createEvent db auth req newId = Except.ok db') :
    db'.callout_attempts = db.callout_attempts ∧
    ∃ ev : CalloutEventRow,
      db'.callout_events = db.callout_events ++ [ev] := by
  by_cases hrole : auth.canManageSchedule = true
  case neg => simp [createEvent, hrole] at h
  by_cases hshift : shiftInOrg db req.scheduled_shift_id auth.org_id = true
  case neg => simp [createEvent, hrole, hshift] at h
  by_cases hreason : (match req.ot_reason_id with
      | none => true
      | some rid => db.ot_reasons.any (fun r => r.id == rid && r.org_id == auth.org_id)) = true
  case neg => simp [createEvent, hrole, hshift, hreason] at h
  by_cases hclass : (match req.classification_id with
      | none => true
      | some cid => db.classifications.any (fun c => c.id == cid && c.org_id == auth.org_id)) = true
  case neg => simp [createEvent, hrole, hshift, hreason, hclass] at h
  by_cases hdup : db.callout_events.any (fun e => e.id == newId) = true
  · simp [createEvent, hrole, hshift, hreason, hclass, hdup] at h
  · simp [createEvent, hrole, hshift, hreason, hclass, hdup] at h
    subst h
    exact ⟨rfl, _, rfl⟩

theorem cancelEvent_ok_inv {db : DB} {auth : AuthUser} {eventId : Nat} {db' : DB}
    (h : cancelEvent db auth eventId = Except.ok db') :
    db'.callout_attempts = db.callout_attempts ∧
    db'.callout_events = cancelMap db auth eventId := by
  by_cases hrole : auth.canManageSchedule = true
  case neg => simp [cancelEvent, hrole] at h
  by_cases hany : db.callout_events.any (cancelCond db auth eventId) = true
  · simp [cancelEvent, hrole, hany] at h
    subst h
    exact ⟨rfl, rfl⟩
  · simp [cancelEvent, hrole, hany] at h

/-! ### Per-operation transition lemmas -/

theorem statusOfList_append_some {events : List CalloutEventRow} {e : Nat}
    {s : CalloutStatus} (l : List CalloutEventRow)
    (h : statusOfList events e = some s) :
    statusOfList (events ++ l) e = some s := by
  unfold statusOfList at h ⊢
  cases hf : events.find? (fun x => x.id == e) with
  | none => rw [hf] at h; exact absurd h (by simp)
  | some r => rw [hf] at h; rw [find?_append_some hf]; exact h

theorem cancelCond_false_of_not_open {db : DB} {auth : AuthUser} {eventId : Nat}
    {r : CalloutEventRow} (h : r.status ≠ CalloutStatus.Open) :
    cancelCond db auth eventId r = false := by
  unfold cancelCond
  have : (r.status == CalloutStatus.Open) = false := by
    simp [h]
  simp [this]

/-- A status lookup that found a row reports that row's status; a change in
the looked-up status after `applyOp` can only be `open → filled` or
`open → cancelled`. -/
theorem applyOp_status_cases (op : Op) (db : DB) (e : Nat) {s : CalloutStatus}
    (hs : statusOf db e = some s) :
    statusOf (applyOp op db) e = some s ∨
      (s = CalloutStatus.Open ∧
        (statusOf (applyOp op db) e = some CalloutStatus.Filled ∨
         statusOf (applyOp op db) e = some CalloutStatus.Cancelled)) := by
  obtain ⟨r, hr, hrs⟩ : ∃ r, db.callout_events.find? (fun x => x.id == e) = some r ∧ r.status = s := by
    rw [statusOf_eq_list, statusOfList] at hs
    cases hf : db.callout_events.find? (fun x => x.id == e) with
    | none => rw [hf] at hs; exact absurd hs (by simp)
    | some r =>
      rw [hf] at hs
      exact ⟨r, rfl, by simpa using hs⟩
  cases op with
  | create auth req newId =>
    cases hc : createEvent db auth req newId with
    | error err => simp only [applyOp, hc]; exact Or.inl hs
    | ok db' =>
      obtain ⟨-, ev, hev⟩ := createEvent_ok_inv hc
      left
      simp only [applyOp, hc]
      rw [statusOf_eq_list, hev]
      exact statusOfList_append_some _ (by rw [← statusOf_eq_list]; exact hs)
  | attempt auth eventId req attemptId =>
    cases hc : recordAttempt db auth eventId req attemptId with
    | error err => simp only [applyOp, hc]; exact Or.inl hs
    | ok res =>
      obtain ⟨db', att⟩ := res
      obtain ⟨hopen', -, -, -, hevs⟩ := recordAttempt_ok_inv hc
      simp only [applyOp, hc]
      cases hevs with
      | inr hsame =>
        left
        rw [statusOf_eq_list, hsame, ← statusOf_eq_list]
        exact hs
      | inl hfill =>
        rw [statusOf_eq_list, hfill, statusOfList_fillEvent, hr]
        by_cases hid : r.id = eventId
        · right
          have hee : e = eventId := by
            have := List.find?_some hr
            simp only [beq_iff_eq] at this
            rw [← this, hid]
          constructor
          · rw [hee] at hs
            rw [hs] at hopen'
            have : CalloutStatus.Open = s := by simpa using hopen'.symm
            exact this.symm
          · left
            simp [hid]
        · left
          simp [hid, hrs]
  | cancel auth eventId =>
    cases hc : cancelEvent db auth eventId with
    | error err => simp only [applyOp, hc]; exact Or.inl hs
    | ok db' =>
      obtain ⟨-, hevs⟩ := cancelEvent_ok_inv hc
      simp only [applyOp, hc]
      rw [statusOf_eq_list, hevs, statusOfList_cancelMap, hr]
      by_cases hcond : cancelCond db auth eventId r = true
      · right
        constructor
        · have : (r.status == CalloutStatus.Open) = true := by
            unfold cancelCond at hcond
            simp only [Bool.and_eq_true] at hcond
            exact hcond.1.2
          rw [← hrs]
          simpa using this
        · right
          simp [hcond]
      · left
        simp [hcond, hrs]

/-- Once a looked-up status is terminal, no single operation changes it. -/
theorem applyOp_status_frozen (op : Op) (db : DB) (e : Nat) {s : CalloutStatus}
    (hs : statusOf db e = some s) (hne : s ≠ CalloutStatus.Open) :
    statusOf (applyOp op db) e = some s := by
  cases applyOp_status_cases op db e hs with
  | inl h => exact h
  | inr h => exact absurd h.1 hne

theorem runOps_status_frozen (ops : List Op) (db : DB) (e : Nat) {s : CalloutStatus}
    (hs : statusOf db e = some s) (hne : s ≠ CalloutStatus.Open) :
    statusOf (runOps ops db) e = some s := by
  induction ops generalizing db with
  | nil => exact hs
  | cons op rest ih => exact ih (applyOp op db) (applyOp_status_frozen op db e hs hne)

/-! ### Position-sequence lemmas -/

/-- The list `[1, 2, ..., n]` as `Int` values. -/
def rangePos (n : Nat) : List Int :=
  (List.range' 1 n).map (fun k => Int.ofNat k)

theorem rangePos_succ (n : Nat) : rangePos (n + 1) = rangePos n ++ [(n : Int) + 1] := by
  unfold rangePos
  rw [List.range'_concat, List.map_append]
  simp
  omega

theorem positionsOf_ext {db db' : DB} (e : Nat)
    (h : db'.callout_attempts = db.callout_attempts) :
    positionsOf db' e = positionsOf db e := by
  unfold positionsOf
  rw [h]

theorem countAttempts_ext {db db' : DB} (e : Nat)
    (h : db'.callout_attempts = db.callout_attempts) :
    countAttempts db' e = countAttempts db e := by
  unfold countAttempts
  rw [h]

theorem applyOp_positions (op : Op) (db : DB) (e : Nat)
    (hp : positionsOf db e = rangePos (countAttempts db e)) :
    positionsOf (applyOp op db) e = rangePos (countAttempts (applyOp op db) e) := by
  cases op with
  | create auth req newId =>
    cases hc : createEvent db auth req newId with
    | error err => simp only [applyOp, hc]; exact hp
    | ok db' =>
      obtain ⟨hatts, -, -⟩ := createEvent_ok_inv hc
      simp only [applyOp, hc]
      rw [positionsOf_ext e hatts, countAttempts_ext e hatts]
      exact hp
  | cancel auth eventId =>
    cases hc : cancelEvent db auth eventId with
    | error err => simp only [applyOp, hc]; exact hp
    | ok db' =>
      obtain ⟨hatts, -⟩ := cancelEvent_ok_inv hc
      simp only [applyOp, hc]
      rw [positionsOf_ext e hatts, countAttempts_ext e hatts]
      exact hp
  | attempt auth eventId req attemptId =>
    cases hc : recordAttempt db auth eventId req attemptId with
    | error err => simp only [applyOp, hc]; exact hp
    | ok res =>
      obtain ⟨db', att⟩ := res
      obtain ⟨-, hev, hpos, hatts, -⟩ := recordAttempt_ok_inv hc
      simp only [applyOp, hc]
      by_cases he : eventId = e
      · subst he
        have hfilt : (att.event_id == eventId) = true := by simp [hev]
        have h1 : positionsOf db' eventId = positionsOf db eventId ++ [att.list_position] := by
          unfold positionsOf
          rw [hatts, List.filter_append, List.map_append]
          simp [List.filter_cons, hfilt]
        have h2 : countAttempts db' eventId = countAttempts db eventId + 1 := by
          unfold countAttempts
          rw [hatts, List.filter_append, List.length_append]
          simp [List.filter_cons, hfilt]
        rw [h1, h2, hp, hpos, rangePos_succ]
      · have hfilt : (att.event_id == e) = false := by
          simp only [hev, beq_eq_false_iff_ne]
          exact he
        have h1 : positionsOf db' e = positionsOf db e := by
          unfold positionsOf
          rw [hatts, List.filter_append]
          simp [List.filter_cons, hfilt]
        have h2 : countAttempts db' e = countAttempts db e := by
          unfold countAttempts
          rw [hatts, List.filter_append]
          simp [List.filter_cons, hfilt]
        rw [h1, h2]
        exact hp

theorem runOps_positions (ops : List Op) (db : DB) (e : Nat)
    (hp : positionsOf db e = rangePos (countAttempts db e)) :
    positionsOf (runOps ops db) e = rangePos (countAttempts (runOps ops db) e) := by
  induction ops generalizing db with
  | nil => exact hp
  | cons op rest ih => exact ih (applyOp op db) (applyOp_positions op db e hp)

/-! ### Forward reduction of `record_attempt` -/

/-- The attempt row `record_attempt` inserts on its success path. -/
def attemptRowOf (db : DB) (eventId : Nat) (req : RecordAttemptRequest)
    (attemptId : Nat) (ctx : EventCtx) : CalloutAttemptRow :=
  { id := attemptId, event_id := eventId, user_id := req.user_id,
    list_position := (countAttempts db eventId : Int) + 1,
    response := req.response,
    ot_hours_at_contact := otWorkedList db.ot_hours req.user_id ctx.shift_date.year,
    notes := req.notes }

theorem recordAttempt_accepted_eq {db : DB} {auth : AuthUser} {eventId : Nat}
    {req : RecordAttemptRequest} {attemptId : Nat} {ctx : EventCtx}
    (hrole : auth.canManageSchedule = true)
    (hctx : findEventCtx db eventId = some ctx)
    (horg : ctx.org_id = auth.org_id)
    (hopen : ctx.status = CalloutStatus.Open)
    (huser : userOk db req.user_id auth.org_id = true)
    (hresp : req.response = "accepted") :
    recordAttempt db auth eventId req attemptId = Except.ok
      (acceptedEffects
        { db with callout_attempts := db.callout_attempts ++ [attemptRowOf db eventId req attemptId ctx] }
        eventId ctx.scheduled_shift_id req.user_id auth.id ctx.shift_date.year
        ((ctx.duration_minutes : Rat) / 60),
       attemptRowOf db eventId req attemptId ctx) := by
  simp [recordAttempt, hrole, hctx, horg, hopen, huser, hresp, attemptRowOf, countAttempts]

theorem recordAttempt_declined_eq {db : DB} {auth : AuthUser} {eventId : Nat}
    {req : RecordAttemptRequest} {attemptId : Nat} {ctx : EventCtx}
    (hrole : auth.canManageSchedule = true)
    (hctx : findEventCtx db eventId = some ctx)
    (horg : ctx.org_id = auth.org_id)
    (hopen : ctx.status = CalloutStatus.Open)
    (huser : userOk db req.user_id auth.org_id = true)
    (hresp : req.response = "declined") :
    recordAttempt db auth eventId req attemptId = Except.ok
      ({ db with
         callout_attempts := db.callout_attempts ++ [attemptRowOf db eventId req attemptId ctx],
         ot_hours := upsertDeclined db.ot_hours req.user_id ctx.shift_date.year
           ((ctx.duration_minutes : Rat) / 60) },
       attemptRowOf db eventId req attemptId ctx) := by
  simp [recordAttempt, hrole, hctx, horg, hopen, huser, hresp, attemptRowOf, countAttempts]

theorem recordAttempt_noanswer_eq {db : DB} {auth : AuthUser} {eventId : Nat}
    {req : RecordAttemptRequest} {attemptId : Nat} {ctx : EventCtx}
    (hrole : auth.canManageSchedule = true)
    (hctx : findEventCtx db eventId = some ctx)
    (horg : ctx.org_id = auth.org_id)
    (hopen : ctx.status = CalloutStatus.Open)
    (huser : userOk db req.user_id auth.org_id = true)
    (hresp : req.response = "no_answer") :
    recordAttempt db auth eventId req attemptId = Except.ok
      ({ db with
         callout_attempts := db.callout_attempts ++ [attemptRowOf db eventId req attemptId ctx] },
       attemptRowOf db eventId req attemptId ctx) := by
  simp [recordAttempt, hrole, hctx, horg, hopen, huser, hresp, attemptRowOf, countAttempts]

/-- `fillEvent` marks an existing event as filled in a status lookup. -/
theorem statusOfList_fillEvent_self {events : List CalloutEventRow} {eventId : Nat}
    (h : (events.find? (fun e => e.id == eventId)).isSome) :
    statusOfList (fillEvent events eventId) eventId = some CalloutStatus.Filled := by
  obtain ⟨ev, hev⟩ := Option.isSome_iff_exists.mp h
  rw [statusOfList_fillEvent, hev]
  have hid := List.find?_some hev
  simp only [beq_iff_eq] at hid
  simp [hid]

theorem statusOf_find_isSome {db : DB} {eventId : Nat} {s : CalloutStatus}
    (h : statusOf db eventId = some s) :
    (db.callout_events.find? (fun e => e.id == eventId)).isSome := by
  rw [statusOf_eq_list, statusOfList] at h
  cases hf : db.callout_events.find? (fun e => e.id == eventId) with
  | none => rw [hf] at h; exact absurd h (by simp)
  | some ev => simp

/-- `insertAssignment` is the identity when the (shift, user) pair is already
assigned. -/
theorem insertAssignment_of_exists {db : DB} {sid uid : Nat} (creator : Nat)
    (h : assignmentExists db sid uid = true) :
    insertAssignment db.assignments sid uid creator = db.assignments := by
  unfold insertAssignment
  unfold assignmentExists at h
  rw [if_pos h]

/-- `insertAssignment` appends exactly one overtime assignment when the
(shift, user) pair is not yet assigned. -/
theorem insertAssignment_of_absent {db : DB} {sid uid : Nat} (creator : Nat)
    (h : assignmentExists db sid uid = false) :
    insertAssignment db.assignments sid uid creator =
      db.assignments ++
        [{ scheduled_shift_id := sid, user_id := uid, is_overtime := true,
           created_by := creator }] := by
  unfold insertAssignment
  unfold assignmentExists at h
  rw [if_neg (by rw [h]; exact Bool.false_ne_true)]

/-! ### Claim theorems: state machine -/

/-- C3: every callout event undergoes at most one terminal transition — a
status change under any operation goes from `open` to `filled` or from `open`
to `cancelled` — and once the status is terminal (non-open), no sequence of
create/record_attempt/cancel operations ever changes it again. -/
theorem callout_terminal_status_frozen :
    (∀ (ops : List Op) (db : DB) (e : Nat) (s : CalloutStatus),
        statusOf db e = some s → s ≠ CalloutStatus.Open →
        statusOf (runOps ops db) e = some s) ∧
    (∀ (op : Op) (db : DB) (e : Nat) (s s' : CalloutStatus),
        statusOf db e = some s → statusOf (applyOp op db) e = some s' → s ≠ s' →
        s = CalloutStatus.Open ∧
          (s' = CalloutStatus.Filled ∨ s' = CalloutStatus.Cancelled)) := by
  constructor
  · intro ops db e s hs hne
    exact runOps_status_frozen ops db e hs hne
  · intro op db e s s' hs hs' hne
    cases applyOp_status_cases op db e hs with
    | inl h =>
      rw [h] at hs'
      exact absurd (Option.some.inj hs') hne
    | inr h =>
      obtain ⟨hopen, hterm⟩ := h
      refine ⟨hopen, ?_⟩
      cases hterm with
      | inl hf => rw [hf] at hs'; exact Or.inl (Option.some.inj hs').symm
      | inr hcterm => rw [hcterm] at hs'; exact Or.inr (Option.some.inj hs').symm

/-- C4: every successful `record_attempt` assigns `list_position` as the count
of the event's existing attempts plus one, and consequently, starting from a
state whose positions for an event are exactly `1..N`, any sequence of
operations leaves them exactly `1..M` (unique, gapless, increasing in
insertion order). -/
theorem attempt_positions_gapless :
    (∀ (db : DB) (auth : AuthUser) (eventId : Nat) (req : RecordAttemptRequest)
        (attemptId : Nat) (db' : DB) (att : CalloutAttemptRow),
        recordAttempt db auth eventId req attemptId = Except.ok (db', att) →
        att.list_position = (countAttempts db eventId : Int) + 1) ∧
    (∀ (ops : List Op) (db : DB) (e : Nat),
        positionsOf db e = rangePos (countAttempts db e) →
        positionsOf (runOps ops db) e = rangePos (countAttempts (runOps ops db) e)) := by
  constructor
  · intro db auth eventId req attemptId db' att h
    exact (recordAttempt_ok_inv h).2.2.1
  · intro ops db e hp
    exact runOps_positions ops db e hp

/-! ### Claim theorems: record_attempt branches -/

/-- C1: for an open callout event and an active user of the caller's org,
`record_attempt` with response `accepted` succeeds, transitions the event to
`filled`, creates the (shift, user) overtime assignment idempotently (an
existing assignment for the pair leaves the assignments table unchanged;
otherwise exactly one row flagged `is_overtime = true` is appended), and adds
`duration_minutes / 60` hours to the user's `hours_worked` ledger entry for
the shift's fiscal year, insert-or-accumulate. -/
theorem recordAttempt_accepted_correct
    (db : DB) (auth : AuthUser) (eventId uid : Nat) (notes : Option String)
    (attemptId : Nat) (ctx : EventCtx)
    (hrole : auth.canManageSchedule = true)
    (hctx : findEventCtx db eventId = some ctx)
    (horg : ctx.org_id = auth.org_id)
    (hopen : ctx.status = CalloutStatus.Open)
    (huser : userOk db uid auth.org_id = true)
    (hclean : cleanLedger db.ot_hours) :
    ∃ db' att,
      recordAttempt db auth eventId
          { user_id := uid, response := "accepted", notes := notes } attemptId
        = Except.ok (db', att) ∧
      statusOf db' eventId = some CalloutStatus.Filled ∧
      (assignmentExists db ctx.scheduled_shift_id uid = true →
        db'.assignments = db.assignments) ∧
      (assignmentExists db ctx.scheduled_shift_id uid = false →
        db'.assignments = db.assignments ++
          [{ scheduled_shift_id := ctx.scheduled_shift_id, user_id := uid,
             is_overtime := true, created_by := auth.id }]) ∧
      otWorked db' uid ctx.shift_date.year
        = otWorked db uid ctx.shift_date.year + (ctx.duration_minutes : Rat) / 60 := by
  refine ⟨_, _, recordAttempt_accepted_eq hrole hctx horg hopen huser rfl, ?_, ?_, ?_, ?_⟩
  · exact statusOfList_fillEvent_self (statusOf_find_isSome (findEventCtx_status hctx))
  · intro hex
    exact insertAssignment_of_exists auth.id hex
  · intro habs
    exact insertAssignment_of_absent auth.id habs
  · exact otWorkedList_upsertWorked hclean uid ctx.shift_date.year _

/-- C2: `record_attempt` against an event of the caller's org whose status is
not `open` fails with Conflict; since the whole handler runs in one
transaction, the returned error corresponds to a full rollback (no attempt
row, no ledger change, no status change). -/
theorem recordAttempt_nonopen_conflict
    (db : DB) (auth : AuthUser) (eventId : Nat) (req : RecordAttemptRequest)
    (attemptId : Nat) (ctx : EventCtx)
    (hrole : auth.canManageSchedule = true)
    (hval : req.response = "accepted" ∨ req.response = "declined" ∨ req.response = "no_answer")
    (hctx : findEventCtx db eventId = some ctx)
    (horg : ctx.org_id = auth.org_id)
    (hnotopen : ctx.status ≠ CalloutStatus.Open) :
    recordAttempt db auth eventId req attemptId
      = Except.error (AppError.Conflict ("Callout event is no longer open")) := by
  simp [recordAttempt, hrole, hval, hctx, horg, hnotopen]

/-- C9: on an open event, `record_attempt` with `declined` accumulates the
shift-duration hours only into the user's `hours_declined` entry — every
`hours_worked` figure, the events table, and the assignments table are all
unchanged — and with `no_answer` the inserted attempt row is the only change
to the entire database state. -/
theorem recordAttempt_declined_noanswer_frame
    (db : DB) (auth : AuthUser) (eventId uid : Nat) (notes : Option String)
    (attemptId : Nat) (ctx : EventCtx)
    (hrole : auth.canManageSchedule = true)
    (hctx : findEventCtx db eventId = some ctx)
    (horg : ctx.org_id = auth.org_id)
    (hopen : ctx.status = CalloutStatus.Open)
    (huser : userOk db uid auth.org_id = true)
    (hclean : cleanLedger db.ot_hours) :
    (∃ db' att,
      recordAttempt db auth eventId
          { user_id := uid, response := "declined", notes := notes } attemptId
        = Except.ok (db', att) ∧
      otDeclined db' uid ctx.shift_date.year
        = otDeclined db uid ctx.shift_date.year + (ctx.duration_minutes : Rat) / 60 ∧
      (∀ (u' : Nat) (fy' : Int), otWorked db' u' fy' = otWorked db u' fy') ∧
      db'.callout_events = db.callout_events ∧
      db'.assignments = db.assignments) ∧
    (∃ db' att,
      recordAttempt db auth eventId
          { user_id := uid, response := "no_answer", notes := notes } attemptId
        = Except.ok (db', att) ∧
      db' = { db with callout_attempts := db.callout_attempts ++ [att] }) := by
  constructor
  · refine ⟨_, _, recordAttempt_declined_eq hrole hctx horg hopen huser rfl, ?_, ?_, rfl, rfl⟩
    · exact otDeclinedList_upsertDeclined hclean uid ctx.shift_date.year _
    · intro u' fy'
      exact otWorkedList_upsertDeclined db.ot_hours uid ctx.shift_date.year _ u' fy'
  · exact ⟨_, _, recordAttempt_noanswer_eq hrole hctx horg hopen huser rfl, rfl⟩

/-- C10: `record_attempt` never consults the ranking or the availability
predicate: an `accepted` response for a user who is simultaneously already
assigned to the shift and on approved leave covering the shift date still
succeeds; the duplicate assignment insert is silently skipped (assignments
table unchanged) while the event still fills and `hours_worked` still
accumulates. -/
theorem recordAttempt_ignores_availability
    (db : DB) (auth : AuthUser) (eventId uid : Nat) (notes : Option String)
    (attemptId : Nat) (ctx : EventCtx)
    (hrole : auth.canManageSchedule = true)
    (hctx : findEventCtx db eventId = some ctx)
    (horg : ctx.org_id = auth.org_id)
    (hopen : ctx.status = CalloutStatus.Open)
    (huser : userOk db uid auth.org_id = true)
    (hclean : cleanLedger db.ot_hours)
    (hassigned : assignmentExists db ctx.scheduled_shift_id uid = true)
    (hleave : onApprovedLeave db uid ctx.shift_date = true) :
    ∃ db' att,
      recordAttempt db auth eventId
          { user_id := uid, response := "accepted", notes := notes } attemptId
        = Except.ok (db', att) ∧
      db'.assignments = db.assignments ∧
      statusOf db' eventId = some CalloutStatus.Filled ∧
      otWorked db' uid ctx.shift_date.year
        = otWorked db uid ctx.shift_date.year + (ctx.duration_minutes : Rat) / 60 := by
  refine ⟨_, _, recordAttempt_accepted_eq hrole hctx horg hopen huser rfl, ?_, ?_, ?_⟩
  · exact insertAssignment_of_exists auth.id hassigned
  · exact statusOfList_fillEvent_self (statusOf_find_isSome (findEventCtx_status hctx))
  · exact otWorkedList_upsertWorked hclean uid ctx.shift_date.year _

/-! ### Ranking-order lemmas -/

theorem availRank_eq_zero {x : Bool} : availRank x = 0 ↔ x = true := by
  cases x <;> simp [availRank]

theorem availRank_inj {x y : Bool} (h : availRank x = availRank y) : x = y := by
  cases x <;> cases y <;> simp [availRank] at h ⊢

theorem dateLe_refl (d : Date) : dateLe d d = true := by
  simp [dateLe]

theorem dateLe_antisymm {d e : Date} (h₁ : dateLe d e = true) (h₂ : dateLe e d = true) :
    d = e := by
  cases d with
  | mk dy dd =>
    cases e with
    | mk ey ed =>
      simp [dateLe] at h₁ h₂
      have hy : dy = ey := by
        rcases h₁ with h | ⟨h, -⟩ <;> rcases h₂ with h' | ⟨h', -⟩ <;> omega
      subst hy
      have hd : dd = ed := by
        rcases h₁ with h | ⟨-, h⟩ <;> rcases h₂ with h' | ⟨-, h'⟩ <;> omega
      subst hd
      rfl

theorem senLe_refl (s : Option Date) : senLe s s = true := by
  cases s with
  | none => rfl
  | some d => simp [senLe, dateLe_refl]

theorem senLe_antisymm {s t : Option Date} (h₁ : senLe s t = true) (h₂ : senLe t s = true) :
    s = t := by
  cases s with
  | none =>
    cases t with
    | none => rfl
    | some e => simp [senLe] at h₁
  | some d =>
    cases t with
    | none => simp [senLe] at h₂
    | some e => exact congrArg some (dateLe_antisymm h₁ h₂)

theorem entryLe_iff (a b : CandidateRow) :
    entryLe a b = true ↔
      (availRank a.is_available < availRank b.is_available ∨
        (availRank a.is_available = availRank b.is_available ∧
          (a.ot_hours < b.ot_hours ∨
            (a.ot_hours = b.ot_hours ∧ senLe a.seniority_date b.seniority_date = true)))) := by
  simp [entryLe, Bool.or_eq_true, Bool.and_eq_true, decide_eq_true_iff, beq_iff_eq]

theorem entryLe_refl (a : CandidateRow) : entryLe a a = true := by
  rw [entryLe_iff]
  exact Or.inr ⟨rfl, Or.inr ⟨rfl, senLe_refl _⟩⟩

theorem sameKey_of_le_le {a b : CandidateRow}
    (hab : entryLe a b = true) (hba : entryLe b a = true) : sameKey a b := by
  rw [entryLe_iff] at hab hba
  have hrank : availRank a.is_available = availRank b.is_available := by
    rcases hab with h | ⟨h, -⟩ <;> rcases hba with h' | ⟨h', -⟩ <;> omega
  have havail : a.is_available = b.is_available := availRank_inj hrank
  rcases hab with h | ⟨-, hab⟩
  · exact absurd hrank (Nat.ne_of_lt h)
  rcases hba with h | ⟨-, hba⟩
  · exact absurd hrank.symm (Nat.ne_of_lt h)
  have hot : a.ot_hours = b.ot_hours := by
    rcases hab with h | ⟨h, -⟩ <;> rcases hba with h' | ⟨h', -⟩
    · exact absurd h' (lt_asymm h)
    · exact h'.symm
    · exact h
    · exact h
  rcases hab with h | ⟨-, hab⟩
  · exact absurd hot (ne_of_lt h)
  rcases hba with h | ⟨-, hba⟩
  · exact absurd hot.symm (ne_of_lt h)
  exact ⟨havail, hot, senLe_antisymm hab hba⟩

theorem entryLe_avail_dominates {a b : CandidateRow}
    (h : entryLe a b = true) (hb : b.is_available = true) : a.is_available = true := by
  rw [entryLe_iff] at h
  have hrb : availRank b.is_available = 0 := availRank_eq_zero.mpr hb
  rcases h with h | ⟨h, -⟩
  · rw [hrb] at h
    exact absurd h (Nat.not_lt_zero _)
  · rw [hrb] at h
    exact availRank_eq_zero.mp h

theorem entryLe_hours_asc {a b : CandidateRow}
    (h : entryLe a b = true) (heq : a.is_available = b.is_available) :
    a.ot_hours ≤ b.ot_hours := by
  rw [entryLe_iff] at h
  rcases h with h | ⟨-, h⟩
  · rw [heq] at h
    exact absurd h (lt_irrefl _)
  · rcases h with h | ⟨h, -⟩
    · exact le_of_lt h
    · exact le_of_eq h

theorem entryLe_seniority {a b : CandidateRow}
    (h : entryLe a b = true) (heq : a.is_available = b.is_available)
    (hot : a.ot_hours = b.ot_hours) :
    senLe a.seniority_date b.seniority_date = true := by
  rw [entryLe_iff] at h
  rcases h with h | ⟨-, h⟩
  · rw [heq] at h
    exact absurd h (lt_irrefl _)
  · rcases h with h | ⟨-, h⟩
    · exact absurd hot (ne_of_lt h)
    · exact h

theorem senLe_some_some {d e : Date} (h : senLe (some d) (some e) = true) :
    dateLe d e = true := h

theorem senLe_none_left {t : Option Date} (h : senLe none t = true) : t = none := by
  cases t with
  | none => rfl
  | some e => exact absurd h (by simp [senLe])

/-! ### Transfer of pairwise facts through position assignment -/

theorem withPositionsFrom_length (k : Nat) (l : List CandidateRow) :
    (withPositionsFrom k l).length = l.length := by
  induction l generalizing k with
  | nil => rfl
  | cons r rs ih => simp [withPositionsFrom, ih]

theorem withPositionsFrom_get (l : List CandidateRow) (k i : Nat)
    (h : i < (withPositionsFrom k l).length) (h' : i < l.length) :
    (withPositionsFrom k l).get ⟨i, h⟩ = toEntry (k + i) (l.get ⟨i, h'⟩) := by
  induction l generalizing k i with
  | nil => exact absurd h' (by simp)
  | cons r rs ih =>
    cases i with
    | zero => rfl
    | succ j =>
      have hj : j < (withPositionsFrom (k + 1) rs).length := by
        simpa [withPositionsFrom] using h
      have hj' : j < rs.length := by simpa using h'
      have := ih (k + 1) j hj hj'
      simp only [withPositionsFrom, List.get_cons_succ]
      rw [this]
      congr 1
      omega

theorem withPositionsFrom_mem {y : CalloutListEntry} {k : Nat} {l : List CandidateRow}
    (h : y ∈ withPositionsFrom k l) : ∃ i b, b ∈ l ∧ y = toEntry i b := by
  induction l generalizing k with
  | nil => exact absurd h (by simp [withPositionsFrom])
  | cons r rs ih =>
    rcases List.mem_cons.mp h with h | h
    · exact ⟨k, r, List.mem_cons_self r rs, h⟩
    · obtain ⟨i, b, hb, hy⟩ := ih h
      exact ⟨i, b, List.mem_cons_of_mem r hb, hy⟩

theorem withPositionsFrom_pairwise {R : CandidateRow → CandidateRow → Prop}
    {S : CalloutListEntry → CalloutListEntry → Prop}
    (hRS : ∀ (i j : Nat) (a b : CandidateRow), R a b → S (toEntry i a) (toEntry j b))
    {l : List CandidateRow} (h : l.Pairwise R) (k : Nat) :
    (withPositionsFrom k l).Pairwise S := by
  induction h generalizing k with
  | nil => exact List.Pairwise.nil
  | cons ha ht ih =>
    refine List.Pairwise.cons ?_ (ih (k + 1))
    intro y hy
    obtain ⟨i, b, hb, rfl⟩ := withPositionsFrom_mem hy
    exact hRS k i _ b (ha b hb)

/-! ### Claim theorems: ranking -/

/-- C5: every possible result of the ranking query, once positions are
attached, is ordered exactly by: availability first (an entry is available
whenever a later entry is), then ascending current-year OT hours within equal
availability, then ascending seniority date with null seniority dates last
within equal availability and hours; and each entry's `position` is its
1-based rank. -/
theorem calloutList_order_spec
    (db : DB) (org sid : Nat) (shiftDate today : Date) (out : List CandidateRow)
    (hvalid : validRankingOutput db org sid shiftDate today out) :
    (∀ (i : Nat) (h : i < (withPositions out).length),
        ((withPositions out).get ⟨i, h⟩).position = (i : Int) + 1) ∧
    (withPositions out).Pairwise
      (fun a b => b.is_available = true → a.is_available = true) ∧
    (withPositions out).Pairwise
      (fun a b => a.is_available = b.is_available → a.ot_hours ≤ b.ot_hours) ∧
    (withPositions out).Pairwise
      (fun a b => a.is_available = b.is_available → a.ot_hours = b.ot_hours →
        ((∀ (da dbb : Date), a.seniority_date = some da → b.seniority_date = some dbb →
            dateLe da dbb = true) ∧
         (a.seniority_date = none → b.seniority_date = none))) := by
  obtain ⟨-, hsort⟩ := hvalid
  refine ⟨?_, ?_, ?_, ?_⟩
  · intro i h
    unfold withPositions at h ⊢
    have h' : i < out.length := by
      have := withPositionsFrom_length 0 out
      omega
    rw [withPositionsFrom_get out 0 i h h']
    simp [toEntry]
  · exact withPositionsFrom_pairwise
      (fun i j a b hab hb => entryLe_avail_dominates hab hb) hsort 0
  · exact withPositionsFrom_pairwise
      (fun i j a b hab heq => entryLe_hours_asc hab heq) hsort 0
  · refine withPositionsFrom_pairwise (fun i j a b hab => ?_) hsort 0
    intro heq hot
    have hsen := entryLe_seniority hab heq hot
    constructor
    · intro da dbb hda hdbb
      rw [show (toEntry i a).seniority_date = a.seniority_date from rfl] at hda
      rw [show (toEntry j b).seniority_date = b.seniority_date from rfl] at hdbb
      rw [hda, hdbb] at hsen
      exact hsen
    · intro hnone
      rw [show (toEntry i a).seniority_date = a.seniority_date from rfl] at hnone
      rw [hnone] at hsen
      exact senLe_none_left hsen

/-- Two sorted permutations of the same candidate multiset coincide, provided
no two listed candidates are tied on all three sort keys. -/
theorem sorted_perm_unique :
    ∀ (l₁ l₂ : List CandidateRow),
      List.Perm l₁ l₂ →
      l₁.Pairwise (fun a b => entryLe a b = true) →
      l₂.Pairwise (fun a b => entryLe a b = true) →
      l₁.Pairwise (fun a b => ¬ sameKey a b) →
      l₁ = l₂ := by
  intro l₁
  induction l₁ with
  | nil =>
    intro l₂ hp _ _ _
    exact (List.Perm.nil_eq hp)
  | cons a t₁ ih =>
    intro l₂ hp hs₁ hs₂ hk
    cases l₂ with
    | nil =>
      have := hp.eq_nil
      exact absurd this (by simp)
    | cons b t₂ =>
      rw [List.pairwise_cons] at hs₁ hs₂ hk
      have hmem_a : a ∈ b :: t₂ := hp.subset (List.mem_cons_self a t₁)
      have hmem_b : b ∈ a :: t₁ := hp.symm.subset (List.mem_cons_self b t₂)
      have le_ba : entryLe b a = true := by
        rcases List.mem_cons.mp hmem_a with h | h
        · rw [h]
          exact entryLe_refl b
        · exact hs₂.1 a h
      have le_ab : entryLe a b = true := by
        rcases List.mem_cons.mp hmem_b with h | h
        · rw [h]
          exact entryLe_refl a
        · exact hs₁.1 b h
      have hkey : sameKey a b := sameKey_of_le_le le_ab le_ba
      have hba : b = a := by
        rcases List.mem_cons.mp hmem_b with h | h
        · exact h
        · exact absurd hkey (hk.1 b h)
      subst hba
      have ht : List.Perm t₁ t₂ := hp.cons_inv
      rw [ih t₂ ht hs₁.2 hs₂.2 hk.2]

/-- C6 amended: the ranking query applies no tie-break key beyond
availability, OT hours and seniority date, so its output is uniquely
determined (two runs against unchanged data coincide) exactly under the
assumption that no two candidates are tied on all three keys; fully tied
candidates may legally appear in either order. -/
theorem calloutList_deterministic_without_full_ties
    (db : DB) (org sid : Nat) (shiftDate today : Date)
    (out₁ out₂ : List CandidateRow)
    (hties : (calloutRows db org sid shiftDate today).Pairwise (fun a b => ¬ sameKey a b))
    (h₁ : validRankingOutput db org sid shiftDate today out₁)
    (h₂ : validRankingOutput db org sid shiftDate today out₂) :
    out₁ = out₂ := by
  have hp : List.Perm out₁ out₂ := h₁.1.trans h₂.1.symm
  have hsymm : Symmetric (fun a b : CandidateRow => ¬ sameKey a b) := by
    intro x y hxy hyx
    exact hxy ⟨hyx.1.symm, hyx.2.1.symm, hyx.2.2.symm⟩
  have hties₁ : out₁.Pairwise (fun a b => ¬ sameKey a b) :=
    hties.perm h₁.1.symm (fun h => hsymm h)
  exact sorted_perm_unique out₁ out₂ hp h₁.2 h₂.2 hties₁

/-- C8 amended: the OT-hours figure attached to every candidate by the
ranking query is the `hours_worked` of the NULL-classification ledger row for
the calendar year of the CURRENT date (the date the ranking is computed), 0
when no such row exists — not the year of the shift's date. -/
theorem calloutList_ot_hours_current_year
    (db : DB) (org sid : Nat) (shiftDate today : Date) (out : List CandidateRow)
    (hvalid : validRankingOutput db org sid shiftDate today out) :
    ∀ r ∈ out, r.ot_hours = otWorked db r.user_id today.year := by
  intro r hr
  have hr' : r ∈ calloutRows db org sid shiftDate today := (hvalid.1.mem_iff).mp hr
  unfold calloutRows at hr'
  obtain ⟨u, hu, rfl⟩ := List.mem_map.mp hr'
  rfl

/-- C7 amended: `cancel_event` succeeds exactly when some event row matches
(id, status `open`, shift in the caller's org); every failure of an
authorized caller is reported as NotFound with the combined message — an
in-org event that is already filled or cancelled also gets NotFound, never
Conflict. -/
theorem cancelEvent_notfound_semantics
    (db : DB) (auth : AuthUser) (eventId : Nat)
    (hrole : auth.canManageSchedule = true) :
    ((∃ db', cancelEvent db auth eventId = Except.ok db') ↔
      db.callout_events.any (cancelCond db auth eventId) = true) ∧
    (∀ err, cancelEvent db auth eventId = Except.error err →
      err = AppError.NotFound ("Event not found, already cancelled, or already filled")) := by
  by_cases hany : db.callout_events.any (cancelCond db auth eventId) = true
  · constructor
    · constructor
      · intro _
        exact hany
      · intro _
        exact ⟨{ db with callout_events := cancelMap db auth eventId },
          by simp [cancelEvent, hrole, hany]⟩
    · intro err h
      simp [cancelEvent, hrole, hany] at h
  · constructor
    · constructor
      · rintro ⟨db', h⟩
        simp [cancelEvent, hrole, hany] at h
      · intro h
        exact absurd h hany
    · intro err h
      simp only [cancelEvent, hrole, if_true, if_neg hany, Except.error.injEq] at h
      exact h.symm

/-! ### Concrete states for witnesses and counterexamples -/

/-- 480-minute (8-hour) shift template of org 1. -/
def shiftTemplateW : ShiftTemplateRow :=
  { id := 10, org_id := 1, duration_minutes := 480 }

/-- A scheduled shift of org 1 on day 100 of 2024. -/
def shiftW : ScheduledShiftRow :=
  { id := 20, org_id := 1, shift_template_id := 10, date := { year := 2024, day := 100 } }

/-- An active employee of org 1. -/
def userW : UserRow :=
  { id := 2, org_id := 1, is_active := true, seniority_date := none, classification_id := none }

/-- An open callout event for `shiftW`. -/
def eventOpenW : CalloutEventRow :=
  { id := 1, scheduled_shift_id := 20, initiated_by := 3, ot_reason_id := none,
    reason_text := none, classification_id := none, status := CalloutStatus.Open }

/-- An already-filled callout event for `shiftW`. -/
def eventFilledW : CalloutEventRow :=
  { eventOpenW with id := 2, status := CalloutStatus.Filled }

/-- Base state: one template, one shift, one employee, one open and one
filled event, empty ledger. -/
def dbW : DB :=
  { shift_templates := [shiftTemplateW], scheduled_shifts := [shiftW], users := [userW],
    callout_events := [eventOpenW, eventFilledW], callout_attempts := [],
    assignments := [], ot_hours := [], leave_requests := [],
    ot_reasons := [], classifications := [] }

/-- A schedule manager of org 1. -/
def authW : AuthUser := { id := 3, org_id := 1, canManageSchedule := true }

/-- Joined context of event 1 in `dbW`. -/
def ctxOpenW : EventCtx :=
  { status := CalloutStatus.Open, scheduled_shift_id := 20, org_id := 1,
    shift_date := { year := 2024, day := 100 }, duration_minutes := 480 }

/-- Joined context of event 2 in `dbW`. -/
def ctxFilledW : EventCtx := { ctxOpenW with status := CalloutStatus.Filled }

/-- `dbW` with the employee both already assigned to the shift and on
approved leave covering the shift date. -/
def dbAvailW : DB :=
  { dbW with
    assignments := [{ scheduled_shift_id := 20, user_id := 2, is_overtime := false,
                      created_by := 3 }],
    leave_requests := [{ user_id := 2, status := LeaveStatus.Approved,
                         start_date := { year := 2024, day := 90 },
                         end_date := { year := 2024, day := 110 } }] }

/-- Two fully tied employees of org 1 (same availability, hours worked,
seniority date). -/
def user6a : UserRow :=
  { id := 2, org_id := 1, is_active := true, seniority_date := none, classification_id := none }

def user6b : UserRow := { user6a with id := 4 }

/-- `dbW` with the two tied employees. -/
def db6 : DB := { dbW with users := [user6a, user6b] }

/-- A ranking-computation date inside 2024. -/
def today6 : Date := { year := 2024, day := 120 }

/-- `dbW` with 10 worked OT hours recorded for the shift's year, 2024. -/
def db8 : DB :=
  { dbW with ot_hours := [{ user_id := 2, fiscal_year := 2024, classification_id := none,
                            hours_worked := 10, hours_declined := 0 }] }

/-- A ranking-computation date in the year after the shift's. -/
def today8 : Date := { year := 2025, day := 50 }

/-! ### Counterexamples for the corrected claims -/

/-- C6 counterexample: with two candidates tied on availability, OT hours and
seniority date, the ranking query admits two different outputs — the list and
its reversal are both valid (its `ORDER BY` has no user-id or other secondary
tie-break key), so the output is not a deterministic total order and is not
fixed in ascending user id. -/
theorem calloutList_tiebreak_counterexample :
    (calloutRows db6 1 20 shiftW.date today6).map (fun r => r.user_id) = [2, 4] ∧
    validRankingOutput db6 1 20 shiftW.date today6
      (calloutRows db6 1 20 shiftW.date today6) ∧
    validRankingOutput db6 1 20 shiftW.date today6
      ((calloutRows db6 1 20 shiftW.date today6).reverse) ∧
    (calloutRows db6 1 20 shiftW.date today6).reverse ≠
      calloutRows db6 1 20 shiftW.date today6 := by
  refine ⟨rfl, ⟨List.Perm.refl _, ?_⟩, ⟨List.reverse_perm _, ?_⟩, ?_⟩
  · decide
  · decide
  · decide

/-- C7 counterexample: event 2 exists in the caller's org and is `filled`,
yet `cancel_event` reports NotFound, not Conflict. -/
theorem cancelEvent_conflict_counterexample :
    statusOf dbW 2 = some CalloutStatus.Filled ∧
    shiftInOrg dbW 20 authW.org_id = true ∧
    cancelEvent dbW authW 2 =
      Except.error
        (AppError.NotFound ("Event not found, already cancelled, or already filled")) :=
  ⟨rfl, rfl, rfl⟩

/-- C8 counterexample: the shift is in 2024 and the user's 2024
null-classification ledger row holds 10 hours, but ranking computed in 2025
attaches 0 OT hours — the figure comes from the current date's year, not the
shift's. -/
theorem calloutList_shift_year_counterexample :
    (calloutRows db8 1 20 shiftW.date today8).map (fun r => r.ot_hours) = [0] ∧
    otWorked db8 2 shiftW.date.year = 10 ∧
    (0 : Rat) ≠ 10 := by
  refine ⟨rfl, rfl, ?_⟩
  norm_num

/-! ### Witnesses -/

theorem recordAttempt_accepted_correct_witness :
    ∃ db' att,
      recordAttempt dbW authW 1
          { user_id := 2, response := "accepted", notes := none } 7
        = Except.ok (db', att) ∧
      statusOf db' 1 = some CalloutStatus.Filled ∧
      (assignmentExists dbW ctxOpenW.scheduled_shift_id 2 = true →
        db'.assignments = dbW.assignments) ∧
      (assignmentExists dbW ctxOpenW.scheduled_shift_id 2 = false →
        db'.assignments = dbW.assignments ++
          [{ scheduled_shift_id := ctxOpenW.scheduled_shift_id, user_id := 2,
             is_overtime := true, created_by := authW.id }]) ∧
      otWorked db' 2 ctxOpenW.shift_date.year
        = otWorked dbW 2 ctxOpenW.shift_date.year + (ctxOpenW.duration_minutes : Rat) / 60 :=
  recordAttempt_accepted_correct dbW authW 1 2 none 7 ctxOpenW rfl rfl rfl rfl rfl
    (by intro r hr; exact absurd hr (by simp [dbW]))

theorem recordAttempt_nonopen_conflict_witness :
    recordAttempt dbW authW 2
        { user_id := 2, response := "accepted", notes := none } 7
      = Except.error (AppError.Conflict ("Callout event is no longer open")) :=
  recordAttempt_nonopen_conflict dbW authW 2
    { user_id := 2, response := "accepted", notes := none } 7 ctxFilledW rfl
    (Or.inl rfl) rfl rfl (by decide)

theorem recordAttempt_declined_noanswer_frame_witness :
    (∃ db' att,
      recordAttempt dbW authW 1
          { user_id := 2, response := "declined", notes := none } 7
        = Except.ok (db', att) ∧
      otDeclined db' 2 ctxOpenW.shift_date.year
        = otDeclined dbW 2 ctxOpenW.shift_date.year + (ctxOpenW.duration_minutes : Rat) / 60 ∧
      (∀ (u' : Nat) (fy' : Int), otWorked db' u' fy' = otWorked dbW u' fy') ∧
      db'.callout_events = dbW.callout_events ∧
      db'.assignments = dbW.assignments) ∧
    (∃ db' att,
      recordAttempt dbW authW 1
          { user_id := 2, response := "no_answer", notes := none } 7
        = Except.ok (db', att) ∧
      db' = { dbW with callout_attempts := dbW.callout_attempts ++ [att] }) :=
  recordAttempt_declined_noanswer_frame dbW authW 1 2 none 7 ctxOpenW rfl rfl rfl rfl rfl
    (by intro r hr; exact absurd hr (by simp [dbW]))

theorem recordAttempt_ignores_availability_witness :
    ∃ db' att,
      recordAttempt dbAvailW authW 1
          { user_id := 2, response := "accepted", notes := none } 7
        = Except.ok (db', att) ∧
      db'.assignments = dbAvailW.assignments ∧
      statusOf db' 1 = some CalloutStatus.Filled ∧
      otWorked db' 2 ctxOpenW.shift_date.year
        = otWorked dbAvailW 2 ctxOpenW.shift_date.year + (ctxOpenW.duration_minutes : Rat) / 60 :=
  recordAttempt_ignores_availability dbAvailW authW 1 2 none 7 ctxOpenW rfl rfl rfl rfl rfl
    (by intro r hr; exact absurd hr (by simp [dbAvailW, dbW])) (by decide) (by decide)

theorem callout_terminal_status_frozen_witness :
    statusOf (runOps [Op.cancel authW 2] dbW) 2 = some CalloutStatus.Filled ∧
    (CalloutStatus.Open = CalloutStatus.Open ∧
      (CalloutStatus.Cancelled = CalloutStatus.Filled ∨
       CalloutStatus.Cancelled = CalloutStatus.Cancelled)) :=
  ⟨callout_terminal_status_frozen.1 [Op.cancel authW 2] dbW 2 CalloutStatus.Filled rfl
      (by decide),
   callout_terminal_status_frozen.2 (Op.cancel authW 1) dbW 1 CalloutStatus.Open
      CalloutStatus.Cancelled rfl (by decide) (by decide)⟩

theorem attempt_positions_gapless_witness :
    (attemptRowOf dbW 1 { user_id := 2, response := "no_answer", notes := none } 7
        ctxOpenW).list_position = (countAttempts dbW 1 : Int) + 1 ∧
    positionsOf
        (runOps [Op.attempt authW 1 { user_id := 2, response := "no_answer", notes := none } 7] dbW)
        1
      = rangePos
          (countAttempts
            (runOps [Op.attempt authW 1 { user_id := 2, response := "no_answer", notes := none } 7] dbW)
            1) :=
  ⟨attempt_positions_gapless.1 dbW authW 1
      { user_id := 2, response := "no_answer", notes := none } 7 _ _
      (recordAttempt_noanswer_eq rfl (rfl : findEventCtx dbW 1 = some ctxOpenW) rfl rfl rfl rfl),
   attempt_positions_gapless.2
      [Op.attempt authW 1 { user_id := 2, response := "no_answer", notes := none } 7] dbW 1 rfl⟩

theorem calloutList_order_spec_witness :
    (∀ (i : Nat) (h : i < (withPositions (calloutRows db6 1 20 shiftW.date today6)).length),
        ((withPositions (calloutRows db6 1 20 shiftW.date today6)).get ⟨i, h⟩).position
          = (i : Int) + 1) ∧
    (withPositions (calloutRows db6 1 20 shiftW.date today6)).Pairwise
      (fun a b => b.is_available = true → a.is_available = true) ∧
    (withPositions (calloutRows db6 1 20 shiftW.date today6)).Pairwise
      (fun a b => a.is_available = b.is_available → a.ot_hours ≤ b.ot_hours) ∧
    (withPositions (calloutRows db6 1 20 shiftW.date today6)).Pairwise
      (fun a b => a.is_available = b.is_available → a.ot_hours = b.ot_hours →
        ((∀ (da dbb : Date), a.seniority_date = some da → b.seniority_date = some dbb →
            dateLe da dbb = true) ∧
         (a.seniority_date = none → b.seniority_date = none))) :=
  calloutList_order_spec db6 1 20 shiftW.date today6 (calloutRows db6 1 20 shiftW.date today6)
    ⟨List.Perm.refl _, by decide⟩

theorem calloutList_deterministic_without_full_ties_witness :
    (calloutRows dbW 1 20 shiftW.date today6).reverse = calloutRows dbW 1 20 shiftW.date today6 :=
  calloutList_deterministic_without_full_ties dbW 1 20 shiftW.date today6
    ((calloutRows dbW 1 20 shiftW.date today6).reverse)
    (calloutRows dbW 1 20 shiftW.date today6)
    (by decide)
    ⟨List.reverse_perm _, by decide⟩
    ⟨List.Perm.refl _, by decide⟩

theorem calloutList_ot_hours_current_year_witness :
    (rosterRow db8 20 shiftW.date today8 userW).ot_hours
      = otWorked db8 (rosterRow db8 20 shiftW.date today8 userW).user_id today8.year :=
  calloutList_ot_hours_current_year db8 1 20 shiftW.date today8
    (calloutRows db8 1 20 shiftW.date today8) ⟨List.Perm.refl _, by decide⟩
    (rosterRow db8 20 shiftW.date today8 userW) (by decide)

theorem cancelEvent_notfound_semantics_witness :
    ((∃ db', cancelEvent dbW authW 2 = Except.ok db') ↔
      dbW.callout_events.any (cancelCond dbW authW 2) = true) ∧
    (∀ err, cancelEvent dbW authW 2 = Except.error err →
      err = AppError.NotFound ("Event not found, already cancelled, or already filled")) :=
  cancelEvent_notfound_semantics dbW authW 2 rfl

end Timeshift
